import Mathlib

/-!
Verification of the data/sync layer of the GokulsweetsCostAnalytics app.

The JavaScript modules under `src/db` and `src/sync` are shallowly embedded:
JS objects become association lists of string keys and values, stateful
backend calls become explicit state passing, thrown errors become `Except`,
and the asynchronous retry / debounce / queue loops become recursive
functions that also record the observable events (number of invocations,
sleep delays, dispatched operations).
-/

/-- A JavaScript value as it appears in the records this layer handles. -/
inductive Val where
  | num (n : Int)
  | str (s : String)
  | boolV (b : Bool)
deriving DecidableEq, Repr

/-- A JavaScript object: an association list of fields (keys are unique in
real JS objects; lemmas that need uniqueness take a `Nodup` hypothesis). -/
abbrev JsObj := List (String × Val)

/-- Property read `o[k]`: the first binding of `k`, `none` for `undefined`. -/
def jsGet : JsObj → String → Option Val
  | [], _ => none
  | (k', v) :: rest, k => if k' = k then some v else jsGet rest k

/-- Property write `o[k] = v`: replace the first binding of `k` in place,
or append a new binding (JS objects keep insertion order). -/
def jsSet : JsObj → String → Val → JsObj
  | [], k, v => [(k, v)]
  | (k', v') :: rest, k, v =>
    if k' = k then (k, v) :: rest else (k', v') :: jsSet rest k v

/-- Spread/assign `{...o, ...payload}`: apply every binding of `payload`. -/
def objAssign (o : JsObj) (payload : JsObj) : JsObj :=
  payload.foldl (fun acc kv => jsSet acc kv.1 kv.2) o

theorem jsGet_jsSet (o : JsObj) (k k' : String) (v : Val) :
    jsGet (jsSet o k v) k' = if k' = k then some v else jsGet o k' := by
  induction o with
  | nil =>
    by_cases h : k' = k
    · simp [jsSet, jsGet, h]
    · simp [jsSet, jsGet, h, Ne.symm h]
  | cons p rest ih =>
    obtain ⟨k₀, v₀⟩ := p
    by_cases h₀ : k₀ = k
    · subst h₀
      by_cases h : k' = k₀
      · simp [jsSet, jsGet, h]
      · simp [jsSet, jsGet, h, Ne.symm h]
    · by_cases h : k' = k₀
      · subst h
        simp [jsSet, jsGet, h₀, Ne.symm h₀, ih]
      · simp [jsSet, jsGet, h₀, Ne.symm h, ih]

theorem jsGet_not_mem (o : JsObj) (k : String) (h : k ∉ o.map Prod.fst) :
    jsGet o k = none := by
  induction o with
  | nil => rfl
  | cons p rest ih =>
    simp only [List.map_cons, List.mem_cons] at h
    push_neg at h
    simp only [jsGet]
    rw [if_neg (fun h' => h.1 h'.symm)]
    exact ih h.2

theorem jsGet_append_not_mem (p₁ : JsObj) (k : String) (v : Val) (p₂ : JsObj)
    (h : k ∉ p₁.map Prod.fst) : jsGet (p₁ ++ (k, v) :: p₂) k = some v := by
  induction p₁ with
  | nil => simp [jsGet]
  | cons p rest ih =>
    obtain ⟨k₀, v₀⟩ := p
    simp only [List.map_cons, List.mem_cons] at h
    push_neg at h
    simp only [List.cons_append, jsGet]
    rw [if_neg (fun h' : k₀ = k => h.1 h'.symm)]
    exact ih h.2

/-! ## Errors (`src/db/base.js`)

A thrown JS error, with the extra fields this codebase attaches
(`code`, `expectedVersion`, `currentVersion`, `field`). -/

structure JsError where
  message : String := ""
  code : Option String := none
  expectedVersion : Option Val := none
  currentVersion : Option Val := none
  field : Option String := none
deriving DecidableEq, Repr

/-! ## Retry wrapper (`window.DB.Base.executeWithRetry`) -/

def MAX_RETRIES : Nat := 3

def RETRY_DELAY_MS : Nat := 1000

/-- The codes checked by `window.DB.Base.isNonRetryableError`. -/
def nonRetryableCodes : List String :=
  ["23505", "23503", "23502", "23514", "42P01", "42703", "PGRST204"]

/-- `isNonRetryableError(error)`: false for a null error or an error with no
`code` property (`includes(undefined)` is false), otherwise membership of
`error.code` in the fixed list. -/
def isNonRetryableError (error : Option JsError) : Bool :=
  match error with
  | none => false
  | some e =>
    match e.code with
    | none => false
    | some c => nonRetryableCodes.contains c

/-- Observable outcome of `executeWithRetry`: final state, the returned value
or the error finally thrown, how many times the operation was invoked, and
the sleep delays performed (in ms, in order). -/
structure RetryTrace (σ α : Type) where
  state : σ
  result : Except JsError α
  calls : Nat
  delays : List Nat
deriving Repr

/-- The retry loop of `executeWithRetry`: `attempt` is the 1-based attempt
number, `remaining` counts the attempts still allowed (initially
`MAX_RETRIES`).  The operation receives the attempt number and the current
backend state.  On a non-retryable error, or when no attempts remain, the
last error is thrown; otherwise the loop sleeps
`RETRY_DELAY_MS * 2 ^ (attempt - 1)` and tries again. -/
def retryGo {σ α : Type} (op : Nat → σ → σ × Except JsError α)
    (attempt : Nat) : Nat → σ → RetryTrace σ α
  | 0, s => ⟨s, .error { message := "no attempts" }, 0, []⟩
  | remaining + 1, s =>
    match op attempt s with
    | (s', .ok a) => ⟨s', .ok a, 1, []⟩
    | (s', .error e) =>
      if isNonRetryableError (some e) then ⟨s', .error e, 1, []⟩
      else if remaining = 0 then ⟨s', .error e, 1, []⟩
      else
        let t := retryGo op (attempt + 1) remaining s'
        ⟨t.state, t.result, t.calls + 1, RETRY_DELAY_MS * 2 ^ (attempt - 1) :: t.delays⟩

/-- `window.DB.Base.executeWithRetry(operation)`. -/
def executeWithRetry {σ α : Type} (op : Nat → σ → σ × Except JsError α)
    (s : σ) : RetryTrace σ α :=
  retryGo op 1 MAX_RETRIES s

/-- One failing retryable attempt with attempts remaining: recurse after a
backoff delay of `RETRY_DELAY_MS * 2 ^ (attempt - 1)`. -/
theorem retryGo_step {σ α : Type} (op : Nat → σ → σ × Except JsError α)
    (attempt remaining : Nat) (s s' : σ) (e : JsError)
    (hop : op attempt s = (s', .error e))
    (hr : isNonRetryableError (some e) = false) (hrem : remaining ≠ 0) :
    retryGo op attempt (remaining + 1) s =
      ⟨(retryGo op (attempt + 1) remaining s').state,
       (retryGo op (attempt + 1) remaining s').result,
       (retryGo op (attempt + 1) remaining s').calls + 1,
       RETRY_DELAY_MS * 2 ^ (attempt - 1)
         :: (retryGo op (attempt + 1) remaining s').delays⟩ := by
  simp [retryGo, hop, hr, hrem]

/-- A failing attempt on the last remaining attempt throws that error. -/
theorem retryGo_last {σ α : Type} (op : Nat → σ → σ × Except JsError α)
    (attempt : Nat) (s s' : σ) (e : JsError)
    (hop : op attempt s = (s', .error e)) :
    retryGo op attempt 1 s = ⟨s', .error e, 1, []⟩ := by
  by_cases hr : isNonRetryableError (some e) = true <;>
    simp [retryGo, hop, hr]

/-- A non-retryable failing attempt throws immediately. -/
theorem retryGo_nonretryable {σ α : Type} (op : Nat → σ → σ × Except JsError α)
    (attempt remaining : Nat) (s s' : σ) (e : JsError)
    (hop : op attempt s = (s', .error e))
    (hr : isNonRetryableError (some e) = true) :
    retryGo op attempt (remaining + 1) s = ⟨s', .error e, 1, []⟩ := by
  simp [retryGo, hop, hr]

/-- If every attempt of the operation throws a retryable error, the wrapper
makes exactly 3 calls, sleeps 1000ms then 2000ms, and ends in the state and
with the error of the third attempt. -/
theorem executeWithRetry_all_fail {σ α : Type}
    (op : Nat → σ → σ × Except JsError α)
    (h : ∀ n s, ∃ e, (op n s).2 = .error e ∧ isNonRetryableError (some e) = false)
    (s : σ) :
    (executeWithRetry op s).calls = 3 ∧
    (executeWithRetry op s).delays = [1000, 2000] ∧
    (executeWithRetry op s).result = (op 3 ((op 2 ((op 1 s).1)).1)).2 ∧
    (executeWithRetry op s).state = (op 3 ((op 2 ((op 1 s).1)).1)).1 := by
  obtain ⟨e₁, he₁, hr₁⟩ := h 1 s
  obtain ⟨e₂, he₂, hr₂⟩ := h 2 (op 1 s).1
  obtain ⟨e₃, he₃, hr₃⟩ := h 3 (op 2 ((op 1 s).1)).1
  have h₁ : op 1 s = ((op 1 s).1, .error e₁) := by rw [← he₁]
  have h₂ : op 2 (op 1 s).1 = ((op 2 (op 1 s).1).1, .error e₂) := by rw [← he₂]
  have h₃ : op 3 (op 2 ((op 1 s).1)).1
      = ((op 3 (op 2 ((op 1 s).1)).1).1, .error e₃) := by rw [← he₃]
  have k1 : retryGo op 1 3 s = _ := retryGo_step op 1 2 s (op 1 s).1 e₁ h₁ hr₁ (by decide)
  have k2 : retryGo op 2 2 (op 1 s).1 = _ :=
    retryGo_step op 2 1 (op 1 s).1 (op 2 (op 1 s).1).1 e₂ h₂ hr₂ (by decide)
  have k3 : retryGo op 3 1 (op 2 ((op 1 s).1)).1
      = ⟨(op 3 (op 2 ((op 1 s).1)).1).1, .error e₃, 1, []⟩ :=
    retryGo_last op 3 (op 2 ((op 1 s).1)).1 (op 3 (op 2 ((op 1 s).1)).1).1 e₃ h₃
  have hrun : executeWithRetry op s = retryGo op 1 3 s := rfl
  rw [hrun, k1, k2, k3, he₃]
  refine ⟨rfl, by norm_num [RETRY_DELAY_MS], rfl, rfl⟩

/-! ## Record Store Adapter state

The backend table contents, keyed by (table name, row id, organization id),
together with a counter of write statements issued against the backend
(used to state that a write was or was not attempted). -/

def DEFAULT_ORG_ID : String := "00000000-0000-0000-0000-000000000001"

structure DbState where
  store : String → String → String → Option JsObj
  writes : Nat

/-- The integer value of a row's `version` column.  The schema in
`src/unnamed/part_002` declares it `version INTEGER DEFAULT 1` on every
versioned table, so on schema-conforming rows this is the stored integer;
the column's default 1 covers the off-schema fallback. -/
def versionCol (row : JsObj) : Int :=
  match jsGet row "version" with
  | some (.num n) => n
  | _ => 1

/-- The `update_timestamp_and_version()` trigger of `src/unnamed/part_002`
(installed `BEFORE UPDATE` on ingredients, recipes, staff and
organizations): on the updated row `NEW` (the old row with the UPDATE
statement's SET columns applied) it unconditionally refreshes
`NEW.updated_at` to the current time and sets
`NEW.version = OLD.version + 1`. -/
def update_timestamp_and_version (oldRow newRow : JsObj) (now : Val) : JsObj :=
  jsSet (jsSet newRow "updated_at" now) "version" (.num (versionCol oldRow + 1))

/-- The write statement
`client.from(tableName).update(data).eq('id', id).eq('organization_id', orgId).select().single()`:
issues a write against the backend (counted), errors with `PGRST116` when no
row matches, and otherwise applies the SET columns, fires the
`update_timestamp_and_version` trigger (with `now` the transaction time)
and returns the updated row. -/
def performUpdate (tableName id : String) (data : JsObj) (now : Val)
    (st : DbState) : DbState × Except JsError JsObj :=
  match st.store tableName id DEFAULT_ORG_ID with
  | none =>
    ({ st with writes := st.writes + 1 },
     .error { message := "JSON object requested, multiple (or no) rows returned",
              code := some "PGRST116" })
  | some row =>
    let row' := update_timestamp_and_version row (objAssign row data) now
    ({ store := fun t i o =>
         if t = tableName ∧ i = id ∧ o = DEFAULT_ORG_ID then some row'
         else st.store t i o,
       writes := st.writes + 1 },
     .ok row')

/-- One attempt of the operation passed to `executeWithRetry` by
`window.DB.Base.update`: when `expectedVersion` is non-null, first read the
current row's `version` (the read's error is discarded; only its `data` is
destructured, so a missing row skips the check), raise a
`VERSION_CONFLICT` error carrying both versions if they differ, and
otherwise perform the write. -/
def updateOp (tableName id : String) (data : JsObj) (now : Val)
    (expectedVersion : Option Val) : Nat → DbState → DbState × Except JsError JsObj :=
  fun _attempt st =>
    match expectedVersion with
    | some ev =>
      match st.store tableName id DEFAULT_ORG_ID with
      | some current =>
        if jsGet current "version" ≠ some ev then
          (st, .error { message := "Version conflict detected",
                        code := some "VERSION_CONFLICT",
                        expectedVersion := some ev,
                        currentVersion := jsGet current "version" })
        else performUpdate tableName id data now st
      | none => performUpdate tableName id data now st
    | none => performUpdate tableName id data now st

/-- `window.DB.Base.update(tableName, id, data, expectedVersion)`; `now` is
the backend's transaction time for the trigger. -/
def DB.Base.update (tableName id : String) (data : JsObj) (now : Val)
    (expectedVersion : Option Val) (st : DbState) : RetryTrace DbState JsObj :=
  executeWithRetry (updateOp tableName id data now expectedVersion) st

/-! ## Duplicate check and ingredient creation
(`window.DB.Base.checkDuplicate`, `window.DB.Ingredients.create`) -/

/-- Character-wise lowercasing (the case folding of SQL `ilike`). -/
def lowerStr (s : String) : String :=
  String.mk (s.data.map Char.toLower)

/-- `ilike('name', name)` on a wildcard-free pattern: case-insensitive
string equality (SQL wildcard characters are not modelled). -/
def ilikeName (row : JsObj) (name : String) : Bool :=
  match jsGet row "name" with
  | some (.str n) => lowerStr n = lowerStr name
  | _ => false

/-- `window.DB.Base.checkDuplicate(tableName, name, excludeId)`: a
case-insensitive lookup of `name`, scoped to the organization, optionally
excluding one id; returns whether a matching row exists. -/
def DB.Base.checkDuplicate (rows : List JsObj) (name : String)
    (excludeId : Option String) : Bool :=
  let found := rows.filter (fun row =>
    (jsGet row "organization_id" == some (.str DEFAULT_ORG_ID)) &&
    ilikeName row name &&
    (match excludeId with
     | some ex => !(jsGet row "id" == some (.str ex))
     | none => true))
  found.head?.isSome

/-- `window.DB.Base.create(tableName, data)` for the ingredients table: the
insert stamps `organization_id` and `created_by` onto the payload; the
backend assigns the fresh row id.  The insert itself succeeds (the
duplicate check has already passed), appending the new row. -/
def DB.Base.createRow (rows : List JsObj) (userId freshId : String)
    (data : JsObj) : List JsObj × JsObj :=
  let recordData := objAssign data
    [("organization_id", .str DEFAULT_ORG_ID), ("created_by", .str userId)]
  let newRow := jsSet recordData "id" (.str freshId)
  (rows ++ [newRow], newRow)

/-- The `ingredientData` argument of `window.DB.Ingredients.create`; a
`none` price is JS `undefined`. -/
structure IngredientInput where
  name : String
  unit : String
  price_per_unit : Option Int
deriving DecidableEq, Repr

/-- `window.DB.Ingredients.create(ingredientData)`: validate required
fields, reject a case-insensitive duplicate name with a `DUPLICATE` error
carrying `field = 'name'` before any insert, and otherwise insert the
trimmed record.  An `.error` result performs no insert: the row list is
returned only on success. -/
def DB.Ingredients.create (input : IngredientInput) (userId freshId : String)
    (rows : List JsObj) : Except JsError (List JsObj × JsObj) :=
  if input.name = "" ∨ input.unit = "" ∨ input.price_per_unit = none then
    .error { message := "Name, unit, and price_per_unit are required" }
  else if DB.Base.checkDuplicate rows input.name none then
    .error { message := "Ingredient \"" ++ input.name ++ "\" already exists",
             code := some "DUPLICATE", field := some "name" }
  else
    .ok (DB.Base.createRow rows userId freshId
      [("name", .str input.name.trim), ("unit", .str input.unit),
       ("price_per_unit", .num (input.price_per_unit.getD 0))])

/-! ## Conflict resolver (`window.Sync.ConflictResolver.mergeData`) -/

/-- The metadata fields skipped by the merge. -/
def metadataFields : List String :=
  ["id", "created_at", "updated_at", "version", "organization_id", "created_by"]

/-- One iteration of the `Object.keys(localData).forEach` loop: skip
metadata fields; overwrite `merged[key]` with the local value when it
differs from the remote value. -/
def mergeStep (remoteData : JsObj) (merged : JsObj) (kv : String × Val) : JsObj :=
  if metadataFields.contains kv.1 then merged
  else if some kv.2 ≠ jsGet remoteData kv.1 then jsSet merged kv.1 kv.2
  else merged

/-- `mergeData`'s merged object: start from a copy of `remoteData` and fold
the loop body over the fields of `localData`. -/
def Sync.ConflictResolver.mergeData (localData remoteData : JsObj) : JsObj :=
  localData.foldl (mergeStep remoteData) remoteData

/-- The pair `mergeData` persists: it calls
`module.update(recordId, merged, remoteData.version)`, i.e. the merged
object together with `remoteData.version` as the optimistic-lock token. -/
def Sync.ConflictResolver.mergeResolve (localData remoteData : JsObj) :
    JsObj × Option Val :=
  (Sync.ConflictResolver.mergeData localData remoteData,
   jsGet remoteData "version")

theorem foldl_mergeStep_not_mem (r : JsObj) (pairs : List (String × Val))
    (acc : JsObj) (k : String) (h : k ∉ pairs.map Prod.fst) :
    jsGet (pairs.foldl (mergeStep r) acc) k = jsGet acc k := by
  induction pairs generalizing acc with
  | nil => rfl
  | cons p rest ih =>
    obtain ⟨k₀, v₀⟩ := p
    simp only [List.map_cons, List.mem_cons] at h
    push_neg at h
    simp only [List.foldl_cons]
    rw [ih _ h.2]
    by_cases hm : k₀ ∈ metadataFields
    · simp [mergeStep, hm]
    · by_cases hd : some v₀ = jsGet r k₀
      · simp [mergeStep, hm, hd]
      · simp [mergeStep, hm, hd, jsGet_jsSet, h.1]

/-! ## Offline queue (`window.Sync.OfflineQueue`) -/

def MAX_QUEUE_SIZE : Nat := 100

/-- A queued mutation: `{table, action, data, id}` as enqueued by the sync
manager (`targetId` models the optional `id`). -/
structure SyncOperation where
  table : String
  action : String
  data : JsObj
  targetId : Option String
deriving DecidableEq, Repr

/-- A queue entry `{id, timestamp, operation}`; the `attempts` counter is
absent until the first failure, which JS treats as 0. -/
structure QueueItem where
  id : String
  timestamp : String
  operation : SyncOperation
  attempts : Nat := 0
deriving DecidableEq, Repr

/-- `window.Sync.OfflineQueue.enqueue(operation)`: when the queue already
holds `MAX_QUEUE_SIZE` entries, `shift()` drops the oldest entry before the
new item is pushed. -/
def Sync.OfflineQueue.enqueue (queue : List QueueItem) (item : QueueItem) :
    List QueueItem :=
  (if MAX_QUEUE_SIZE ≤ queue.length then queue.drop 1 else queue) ++ [item]

/-- Termination measure for the `processQueue` drain loop: every failure
either removes an item or increases an `attempts` counter capped at 3. -/
def queueMeasure (queue : List QueueItem) : Nat :=
  (queue.map (fun item => 4 - min item.attempts 3)).sum

/-- The `while (this.queue.length > 0)` loop of
`window.Sync.OfflineQueue.processQueue`.  `exec t item` is the outcome of
the t-th remote execution (the nondeterministic backend).  On success the
head is removed and `results.success` incremented; on failure
`results.failed` is incremented and the head, its `attempts` counter
incremented, is dropped once `attempts` reaches 3 and otherwise moved to
the tail.  Returns `((success, failed), final queue)`. -/
def Sync.OfflineQueue.processQueue (exec : Nat → QueueItem → Bool) :
    Nat → List QueueItem → Nat × Nat → (Nat × Nat) × List QueueItem
  | _, [], results => (results, [])
  | t, item :: rest, (succ, failed) =>
    if exec t item then
      Sync.OfflineQueue.processQueue exec (t + 1) rest (succ + 1, failed)
    else if 3 ≤ item.attempts + 1 then
      Sync.OfflineQueue.processQueue exec (t + 1) rest (succ, failed + 1)
    else
      Sync.OfflineQueue.processQueue exec (t + 1)
        (rest ++ [{ item with attempts := item.attempts + 1 }]) (succ, failed + 1)
termination_by _ queue _ => queueMeasure queue
decreasing_by
  all_goals simp only [queueMeasure, List.map_cons, List.sum_cons, List.map_append,
    List.sum_append, List.map_nil, List.sum_nil]
  · omega
  · omega
  · omega

/-! ## Debounced saves (`window.Sync.Manager.save`) -/

def DEBOUNCE_MS : Nat := 300

/-- Event-loop model of the debounced `save`: the trace is a chronological
list of `(arrival time, save arguments)` calls.  A pending timer is
`(fire time, args)`.  Each call clears a pending timer that has not yet
fired and schedules its own at `arrival + DEBOUNCE_MS`; a pending timer
whose fire time has passed when the next call arrives fires first,
dispatching one underlying DB-module call.  The trailing timer fires at the
end.  Returns the dispatched operations in order. -/
def Sync.Manager.runSaves :
    Option (Nat × SyncOperation) → List (Nat × SyncOperation) → List SyncOperation
  | none, [] => []
  | some (_, args), [] => [args]
  | pending, (t, args) :: rest =>
    match pending with
    | some (tf, pargs) =>
      if tf ≤ t then
        pargs :: Sync.Manager.runSaves (some (t + DEBOUNCE_MS, args)) rest
      else Sync.Manager.runSaves (some (t + DEBOUNCE_MS, args)) rest
    | none => Sync.Manager.runSaves (some (t + DEBOUNCE_MS, args)) rest

/-! ## Claim theorems -/

/-- If the three attempts fail along the actual state chain with retryable
errors, the wrapper makes 3 calls, sleeps 1000ms then 2000ms, ends in the
third attempt's state and throws the third attempt's error. -/
theorem executeWithRetry_chain_fail {σ α : Type}
    (op : Nat → σ → σ × Except JsError α) (s₀ s₁ s₂ s₃ : σ)
    (e₁ e₂ e₃ : JsError)
    (h1 : op 1 s₀ = (s₁, .error e₁)) (h2 : op 2 s₁ = (s₂, .error e₂))
    (h3 : op 3 s₂ = (s₃, .error e₃))
    (hr1 : isNonRetryableError (some e₁) = false)
    (hr2 : isNonRetryableError (some e₂) = false) :
    executeWithRetry op s₀ = ⟨s₃, .error e₃, 3, [1000, 2000]⟩ := by
  have k1 := retryGo_step op 1 2 s₀ s₁ e₁ h1 hr1 (by decide)
  have k2 := retryGo_step op 2 1 s₁ s₂ e₂ h2 hr2 (by decide)
  have k3 := retryGo_last op 3 s₂ s₃ e₃ h3
  have hrun : executeWithRetry op s₀ = retryGo op 1 3 s₀ := rfl
  rw [hrun, k1, k2, k3]
  norm_num [RETRY_DELAY_MS]

/-- C3: an operation failing on every attempt with a retryable
(non-classified) error is invoked exactly 3 times, with sleeps of 1000ms
after the first failure and 2000ms after the second, and the error of the
last (third) attempt is raised to the caller. -/
theorem executeWithRetry_retryable_exhaustion {σ α : Type}
    (op : Nat → σ → σ × Except JsError α)
    (h : ∀ n s, ∃ e, (op n s).2 = .error e ∧ isNonRetryableError (some e) = false)
    (s : σ) :
    (executeWithRetry op s).calls = 3 ∧
    (executeWithRetry op s).delays = [1000, 2000] ∧
    (executeWithRetry op s).result = (op 3 ((op 2 ((op 1 s).1)).1)).2 :=
  ⟨(executeWithRetry_all_fail op h s).1, (executeWithRetry_all_fail op h s).2.1,
   (executeWithRetry_all_fail op h s).2.2.1⟩

/-- A concrete operation that always fails with an uncoded (retryable)
error. -/
def alwaysFailOp : Nat → Unit → Unit × Except JsError Unit :=
  fun _ _ => ((), .error { message := "network down" })

/-- Witness for `executeWithRetry_retryable_exhaustion`. -/
theorem executeWithRetry_retryable_exhaustion_witness :
    (executeWithRetry alwaysFailOp ()).calls = 3 ∧
    (executeWithRetry alwaysFailOp ()).delays = [1000, 2000] ∧
    (executeWithRetry alwaysFailOp ()).result
      = (alwaysFailOp 3 ((alwaysFailOp 2 ((alwaysFailOp 1 ()).1)).1)).2 :=
  executeWithRetry_retryable_exhaustion alwaysFailOp
    (fun _ _ => ⟨{ message := "network down" }, rfl, rfl⟩) ()

/-- C4: an operation whose first attempt fails with a constraint-class
error code is invoked exactly once and that error is raised immediately,
with no retry and no delay. -/
theorem executeWithRetry_constraint_short_circuit {σ α : Type}
    (op : Nat → σ → σ × Except JsError α) (s : σ) (s' : σ) (e : JsError)
    (c : String) (hop : op 1 s = (s', .error e)) (hc : e.code = some c)
    (hmem : c ∈ (["23505", "23503", "23502", "23514", "42P01", "42703"] : List String)) :
    executeWithRetry op s = ⟨s', .error e, 1, []⟩ := by
  have hnr : isNonRetryableError (some e) = true := by
    simp only [isNonRetryableError, hc]
    fin_cases hmem <;> decide
  exact retryGo_nonretryable op 1 2 s s' e hop hnr

/-- A concrete operation that fails with a unique-constraint violation. -/
def uniqueViolationOp : Nat → Unit → Unit × Except JsError Unit :=
  fun _ _ => ((), .error { message := "duplicate key", code := some "23505" })

/-- Witness for `executeWithRetry_constraint_short_circuit`. -/
theorem executeWithRetry_constraint_short_circuit_witness :
    executeWithRetry uniqueViolationOp ()
      = ⟨(), .error { message := "duplicate key", code := some "23505" }, 1, []⟩ :=
  executeWithRetry_constraint_short_circuit uniqueViolationOp () ()
    { message := "duplicate key", code := some "23505" } "23505" rfl rfl
    (by decide)

/-- A version-conflict error as raised by `DB.Base.update`. -/
def vcSampleError : JsError :=
  { message := "Version conflict detected", code := some "VERSION_CONFLICT",
    expectedVersion := some (.num 1), currentVersion := some (.num 2) }

/-- A concrete operation that always fails with a version conflict. -/
def vcFailOp : Nat → Unit → Unit × Except JsError Unit :=
  fun _ _ => ((), .error vcSampleError)

/-- C2 counterexample: an operation failing with a version-conflict error is
NOT attempted exactly once without delays — the wrapper invokes it 3 times
and sleeps 1000ms and 2000ms in between, because `VERSION_CONFLICT` is not
in `nonRetryableCodes`. -/
theorem version_conflict_retried_counterexample :
    (executeWithRetry vcFailOp ()).calls = 3 ∧
    (executeWithRetry vcFailOp ()).delays = [1000, 2000] ∧
    ¬ ((executeWithRetry vcFailOp ()).calls = 1 ∧
       (executeWithRetry vcFailOp ()).delays = []) := by
  refine ⟨rfl, rfl, ?_⟩
  intro hcontra
  simp [executeWithRetry, MAX_RETRIES, retryGo, vcFailOp, vcSampleError,
    isNonRetryableError, nonRetryableCodes] at hcontra

/-- C2 (amended): a version-conflict error is classified retryable, so an
operation failing with one on every attempt is invoked 3 times with backoff
delays of 1000ms and 2000ms, after which the version-conflict error of the
last attempt is surfaced to the caller. -/
theorem version_conflict_is_retryable {σ α : Type}
    (op : Nat → σ → σ × Except JsError α)
    (h : ∀ n s, ∃ e, (op n s).2 = .error e ∧ e.code = some "VERSION_CONFLICT")
    (s : σ) :
    isNonRetryableError (some vcSampleError) = false ∧
    (executeWithRetry op s).calls = 3 ∧
    (executeWithRetry op s).delays = [1000, 2000] ∧
    ∃ e, (executeWithRetry op s).result = .error e ∧
      e.code = some "VERSION_CONFLICT" := by
  have h' : ∀ n s₀, ∃ e, (op n s₀).2 = .error e ∧
      isNonRetryableError (some e) = false := by
    intro n s₀
    obtain ⟨e, he, hc⟩ := h n s₀
    refine ⟨e, he, ?_⟩
    simp [isNonRetryableError, hc, nonRetryableCodes]
  obtain ⟨hcalls, hdelays, hres, _⟩ := executeWithRetry_all_fail op h' s
  obtain ⟨e₃, he₃, hcode⟩ := h 3 ((op 2 ((op 1 s).1)).1)
  exact ⟨rfl, hcalls, hdelays, e₃, hres.trans he₃, hcode⟩

/-- Witness for `version_conflict_is_retryable`. -/
theorem version_conflict_is_retryable_witness :
    isNonRetryableError (some vcSampleError) = false ∧
    (executeWithRetry vcFailOp ()).calls = 3 ∧
    (executeWithRetry vcFailOp ()).delays = [1000, 2000] ∧
    ∃ e, (executeWithRetry vcFailOp ()).result = .error e ∧
      e.code = some "VERSION_CONFLICT" :=
  version_conflict_is_retryable vcFailOp
    (fun _ _ => ⟨vcSampleError, rfl, rfl⟩) ()

/-- C1: when `update` is called with a non-null `expectedVersion` and the
stored record's current version differs, the call fails with a
`VERSION_CONFLICT` error carrying both the expected and the current
version, no write statement is ever issued, and the stored state is left
unmodified. -/
theorem update_version_conflict_spec (tableName id : String) (data : JsObj)
    (now ev cv : Val) (st : DbState) (current : JsObj)
    (hrow : st.store tableName id DEFAULT_ORG_ID = some current)
    (hver : jsGet current "version" = some cv) (hne : cv ≠ ev) :
    (DB.Base.update tableName id data now (some ev) st).result =
      .error { message := "Version conflict detected",
               code := some "VERSION_CONFLICT",
               expectedVersion := some ev, currentVersion := some cv } ∧
    (DB.Base.update tableName id data now (some ev) st).state = st ∧
    (DB.Base.update tableName id data now (some ev) st).state.writes = st.writes := by
  have hop : ∀ n, updateOp tableName id data now (some ev) n st
      = (st, .error { message := "Version conflict detected",
                      code := some "VERSION_CONFLICT",
                      expectedVersion := some ev, currentVersion := some cv }) := by
    intro n
    simp [updateOp, hrow, hver, hne]
  have hchain := executeWithRetry_chain_fail
    (updateOp tableName id data now (some ev)) st st st st _ _ _
    (hop 1) (hop 2) (hop 3) rfl rfl
  have hupd : DB.Base.update tableName id data now (some ev) st
      = ⟨st, .error { message := "Version conflict detected",
                      code := some "VERSION_CONFLICT",
                      expectedVersion := some ev, currentVersion := some cv },
         3, [1000, 2000]⟩ := hchain
  rw [hupd]
  exact ⟨rfl, rfl, rfl⟩

/-- Concrete one-row backend state for the witnesses: an ingredients row
`r1` at version 5. -/
def exStore : DbState :=
  { store := fun t i o =>
      if t = "ingredients" ∧ i = "r1" ∧ o = DEFAULT_ORG_ID then
        some [("version", .num 5), ("name", .str "X"), ("price", .num 12)]
      else none,
    writes := 0 }

/-- Witness for `update_version_conflict_spec`. -/
theorem update_version_conflict_spec_witness :
    (DB.Base.update "ingredients" "r1" [("price", .num 10)]
        (.str "2026-10-11T00:00:00Z") (some (.num 4)) exStore).result =
      .error { message := "Version conflict detected",
               code := some "VERSION_CONFLICT",
               expectedVersion := some (.num 4),
               currentVersion := some (.num 5) } ∧
    (DB.Base.update "ingredients" "r1" [("price", .num 10)]
        (.str "2026-10-11T00:00:00Z") (some (.num 4)) exStore).state = exStore ∧
    (DB.Base.update "ingredients" "r1" [("price", .num 10)]
        (.str "2026-10-11T00:00:00Z") (some (.num 4)) exStore).state.writes
      = exStore.writes :=
  update_version_conflict_spec "ingredients" "r1" [("price", .num 10)]
    (.str "2026-10-11T00:00:00Z") (.num 4) (.num 5) exStore
    [("version", .num 5), ("name", .str "X"), ("price", .num 12)]
    (by simp [exStore, DEFAULT_ORG_ID]) (by decide) (by decide)

/-- C10: when `update` is called with a non-null `expectedVersion` but the
preliminary version read finds no current row, the conflict check is
skipped: no `VERSION_CONFLICT` error is raised and the write against the
backend is attempted anyway (three write statements are issued across the
retries, and the surfaced error is the backend's no-row error). -/
theorem update_missing_row_skips_check (tableName id : String) (data : JsObj)
    (now ev : Val) (st : DbState)
    (hrow : st.store tableName id DEFAULT_ORG_ID = none) :
    (DB.Base.update tableName id data now (some ev) st).result =
      .error { message := "JSON object requested, multiple (or no) rows returned",
               code := some "PGRST116" } ∧
    (DB.Base.update tableName id data now (some ev) st).state.writes
      = st.writes + 3 ∧
    ∀ e, (DB.Base.update tableName id data now (some ev) st).result = .error e →
      e.code ≠ some "VERSION_CONFLICT" := by
  have hop : ∀ (n w : Nat), updateOp tableName id data now (some ev) n ⟨st.store, w⟩
      = (⟨st.store, w + 1⟩,
         .error { message := "JSON object requested, multiple (or no) rows returned",
                  code := some "PGRST116" }) := by
    intro n w
    simp [updateOp, performUpdate, hrow]
  have hchain := executeWithRetry_chain_fail
    (updateOp tableName id data now (some ev))
    ⟨st.store, st.writes⟩ ⟨st.store, st.writes + 1⟩
    ⟨st.store, st.writes + 1 + 1⟩ ⟨st.store, st.writes + 1 + 1 + 1⟩ _ _ _
    (hop 1 st.writes) (hop 2 (st.writes + 1)) (hop 3 (st.writes + 1 + 1))
    rfl rfl
  have hupd : DB.Base.update tableName id data now (some ev) st
      = ⟨⟨st.store, st.writes + 1 + 1 + 1⟩,
         .error { message := "JSON object requested, multiple (or no) rows returned",
                  code := some "PGRST116" }, 3, [1000, 2000]⟩ := hchain
  rw [hupd]
  refine ⟨rfl, rfl, ?_⟩
  intro e he
  cases he
  decide

/-- Witness for `update_missing_row_skips_check`: the row id `r2` does not
exist in `exStore`. -/
theorem update_missing_row_skips_check_witness :
    (DB.Base.update "ingredients" "r2" [("price", .num 10)]
        (.str "2026-10-11T00:00:00Z") (some (.num 4)) exStore).result =
      .error { message := "JSON object requested, multiple (or no) rows returned",
               code := some "PGRST116" } ∧
    (DB.Base.update "ingredients" "r2" [("price", .num 10)]
        (.str "2026-10-11T00:00:00Z") (some (.num 4)) exStore).state.writes
      = exStore.writes + 3 ∧
    ∀ e, (DB.Base.update "ingredients" "r2" [("price", .num 10)]
        (.str "2026-10-11T00:00:00Z") (some (.num 4)) exStore).result = .error e →
      e.code ≠ some "VERSION_CONFLICT" :=
  update_missing_row_skips_check "ingredients" "r2" [("price", .num 10)]
    (.str "2026-10-11T00:00:00Z") (.num 4) exStore
    (by simp [exStore, DEFAULT_ORG_ID])

theorem head?_isSome_of_mem {α : Type} {l : List α} {a : α} (h : a ∈ l) :
    l.head?.isSome = true := by
  cases l with
  | nil => cases h
  | cons b t => rfl

/-- C5: if the workspace already holds a record whose name equals the new
ingredient's name up to letter case, `Ingredients.create` (called with a
well-formed payload) raises an error with code `DUPLICATE` and field
`name`; the `.error` result means the insert is never performed, so no
second row is created. -/
theorem ingredients_create_duplicate_rejected
    (input : IngredientInput) (userId freshId : String)
    (rows : List JsObj) (existing : JsObj) (n : String)
    (hmem : existing ∈ rows)
    (horg : jsGet existing "organization_id" = some (.str DEFAULT_ORG_ID))
    (hname : jsGet existing "name" = some (.str n))
    (hcase : lowerStr n = lowerStr input.name)
    (hn : input.name ≠ "") (hu : input.unit ≠ "")
    (hp : input.price_per_unit ≠ none) :
    DB.Ingredients.create input userId freshId rows =
      .error { message := "Ingredient \"" ++ input.name ++ "\" already exists",
               code := some "DUPLICATE", field := some "name" } := by
  have hdup : DB.Base.checkDuplicate rows input.name none = true := by
    unfold DB.Base.checkDuplicate
    refine head?_isSome_of_mem (a := existing) ?_
    refine List.mem_filter.mpr ⟨hmem, ?_⟩
    simp [horg, ilikeName, hname, hcase]
  simp [DB.Ingredients.create, hn, hu, hp, hdup]

/-- Witness for `ingredients_create_duplicate_rejected`: a row named
`Sugar` already exists; creating `sugar` is rejected. -/
theorem ingredients_create_duplicate_rejected_witness :
    DB.Ingredients.create ⟨"sugar", "kg", some 50⟩ "u1" "f1"
        [[("organization_id", .str DEFAULT_ORG_ID), ("name", .str "Sugar"),
          ("id", .str "a1")]] =
      .error { message := "Ingredient \"sugar\" already exists",
               code := some "DUPLICATE", field := some "name" } :=
  ingredients_create_duplicate_rejected ⟨"sugar", "kg", some 50⟩ "u1" "f1"
    [[("organization_id", .str DEFAULT_ORG_ID), ("name", .str "Sugar"),
      ("id", .str "a1")]]
    [("organization_id", .str DEFAULT_ORG_ID), ("name", .str "Sugar"),
      ("id", .str "a1")] "Sugar"
    (by decide) (by decide) (by decide) (by decide) (by decide) (by decide)
    (by decide)

/-- C6: resolving with strategy `merge` starts from the remote snapshot and,
for each non-metadata key of the local snapshot whose local value differs
from the remote value, replaces it with the local value; the pair persisted
via `update` is this merged object together with the remote snapshot's
`version` as the optimistic-lock token. -/
theorem merge_strategy_local_wins (localData remoteData : JsObj)
    (hnodup : (localData.map Prod.fst).Nodup) :
    (∀ k, jsGet (Sync.ConflictResolver.mergeData localData remoteData) k =
      if k ∈ localData.map Prod.fst ∧ k ∉ metadataFields ∧
         jsGet localData k ≠ jsGet remoteData k
      then jsGet localData k
      else jsGet remoteData k) ∧
    (Sync.ConflictResolver.mergeResolve localData remoteData).1
      = Sync.ConflictResolver.mergeData localData remoteData ∧
    (Sync.ConflictResolver.mergeResolve localData remoteData).2
      = jsGet remoteData "version" := by
  refine ⟨?_, rfl, rfl⟩
  intro k
  by_cases hk : k ∈ localData.map Prod.fst
  · obtain ⟨⟨k', v⟩, hpv, hpk⟩ := List.mem_map.mp hk
    dsimp at hpk
    subst hpk
    obtain ⟨l₁, l₂, hsplit⟩ := List.append_of_mem hpv
    subst hsplit
    rw [List.map_append, List.map_cons] at hnodup
    obtain ⟨hn1, hn2, hdisj⟩ := List.nodup_append.mp hnodup
    have hk2 : k' ∉ l₂.map Prod.fst := (List.nodup_cons.mp hn2).1
    have hk1 : k' ∉ l₁.map Prod.fst :=
      fun hc => hdisj hc (List.mem_cons_self k' _)
    have hl1 : jsGet (List.foldl (mergeStep remoteData) remoteData l₁) k'
        = jsGet remoteData k' := foldl_mergeStep_not_mem _ _ _ _ hk1
    have hlocal : jsGet (l₁ ++ (k', v) :: l₂) k' = some v :=
      jsGet_append_not_mem l₁ k' v l₂ hk1
    unfold Sync.ConflictResolver.mergeData
    rw [List.foldl_append, List.foldl_cons,
      foldl_mergeStep_not_mem _ _ _ _ hk2]
    by_cases hmd : k' ∈ metadataFields
    · simp [mergeStep, hmd, hl1]
    · by_cases hv : some v = jsGet remoteData k'
      · simp [mergeStep, hmd, hv, hl1, hlocal]
      · simp [mergeStep, hmd, hv, hl1, hlocal, jsGet_jsSet, hk]
  · unfold Sync.ConflictResolver.mergeData
    rw [foldl_mergeStep_not_mem _ _ _ _ hk]
    simp [hk]

/-- Witness for `merge_strategy_local_wins`, at the spec's example: local
`{price: 10, name: "X"}` and remote `{price: 12, name: "X", version: 5}`
merge to price 10, name `X`, and are persisted with lock token 5. -/
theorem merge_strategy_local_wins_witness :
    jsGet (Sync.ConflictResolver.mergeData
        [("price", Val.num 10), ("name", Val.str "X")]
        [("price", Val.num 12), ("name", Val.str "X"), ("version", Val.num 5)])
      "price" = some (Val.num 10) ∧
    jsGet (Sync.ConflictResolver.mergeData
        [("price", Val.num 10), ("name", Val.str "X")]
        [("price", Val.num 12), ("name", Val.str "X"), ("version", Val.num 5)])
      "name" = some (Val.str "X") ∧
    (Sync.ConflictResolver.mergeResolve
        [("price", Val.num 10), ("name", Val.str "X")]
        [("price", Val.num 12), ("name", Val.str "X"), ("version", Val.num 5)]).2
      = some (Val.num 5) := by
  have h := merge_strategy_local_wins
    [("price", Val.num 10), ("name", Val.str "X")]
    [("price", Val.num 12), ("name", Val.str "X"), ("version", Val.num 5)]
    (by decide)
  exact ⟨(h.1 "price").trans (by decide), (h.1 "name").trans (by decide),
    h.2.2.trans (by decide)⟩

theorem enqueue_foldl (q : List QueueItem) (items : List QueueItem)
    (hq : q.length ≤ MAX_QUEUE_SIZE) :
    items.foldl Sync.OfflineQueue.enqueue q
      = (q ++ items).drop (q.length + items.length - MAX_QUEUE_SIZE) := by
  induction items using List.reverseRecOn with
  | nil =>
    simp [Nat.sub_eq_zero_of_le hq]
  | append_singleton l x ih =>
    have hM : MAX_QUEUE_SIZE = 100 := rfl
    rw [List.foldl_append, List.foldl_cons, List.foldl_nil, ih]
    by_cases hlen : MAX_QUEUE_SIZE ≤ q.length + l.length
    · have hDlen : ((q ++ l).drop (q.length + l.length - MAX_QUEUE_SIZE)).length
          = MAX_QUEUE_SIZE := by
        rw [List.length_drop, List.length_append]
        omega
      have hstep : Sync.OfflineQueue.enqueue
          ((q ++ l).drop (q.length + l.length - MAX_QUEUE_SIZE)) x
          = ((q ++ l).drop (q.length + l.length - MAX_QUEUE_SIZE)).drop 1 ++ [x] := by
        rw [Sync.OfflineQueue.enqueue, if_pos (le_of_eq hDlen.symm)]
      have harith : q.length + (l ++ [x]).length - MAX_QUEUE_SIZE
          = (q.length + l.length - MAX_QUEUE_SIZE) + 1 := by
        simp only [List.length_append, List.length_cons, List.length_nil]
        omega
      have hle : (q.length + l.length - MAX_QUEUE_SIZE) + 1 ≤ (q ++ l).length := by
        rw [List.length_append]
        omega
      rw [hstep, List.drop_drop, ← List.append_assoc, harith,
        List.drop_append_of_le_length hle]
    · have h0 : q.length + l.length - MAX_QUEUE_SIZE = 0 := by omega
      have h0' : q.length + (l ++ [x]).length - MAX_QUEUE_SIZE = 0 := by
        simp only [List.length_append, List.length_cons, List.length_nil]
        omega
      rw [h0, h0', List.drop_zero, List.drop_zero, Sync.OfflineQueue.enqueue,
        if_neg (by rw [List.length_append]; omega), List.append_assoc]

/-- C7: the offline queue is bounded by 100 entries.  Starting empty, after
any sequence of enqueues it holds exactly the `min length 100` most
recently enqueued items in arrival order; and an enqueue against a full
queue first drops the oldest (head) entry and then appends the new one. -/
theorem offline_queue_capacity (items : List QueueItem) :
    items.foldl Sync.OfflineQueue.enqueue []
      = items.drop (items.length - MAX_QUEUE_SIZE) ∧
    (items.foldl Sync.OfflineQueue.enqueue []).length
      = min items.length MAX_QUEUE_SIZE ∧
    ∀ (q : List QueueItem) (x : QueueItem), MAX_QUEUE_SIZE ≤ q.length →
      Sync.OfflineQueue.enqueue q x = q.drop 1 ++ [x] := by
  have h := enqueue_foldl [] items (by simp [MAX_QUEUE_SIZE])
  simp only [List.nil_append, List.length_nil, Nat.zero_add] at h
  refine ⟨h, ?_, ?_⟩
  · rw [h]
    simp only [List.length_drop]
    omega
  · intro q x hq
    rw [Sync.OfflineQueue.enqueue, if_pos hq]

/-- Example operation and queue items for the queue witnesses. -/
def exQueueOperation : SyncOperation :=
  ⟨"ingredients", "create", [("name", .str "Sugar")], none⟩

def exQueueItemA : QueueItem := ⟨"q0", "t0", exQueueOperation, 0⟩

def exQueueItemB : QueueItem := ⟨"q1", "t1", exQueueOperation, 0⟩

/-- Witness for `offline_queue_capacity`: a full queue of 100 items drops
its head on the 101st enqueue. -/
theorem offline_queue_capacity_witness :
    Sync.OfflineQueue.enqueue (List.replicate 100 exQueueItemA) exQueueItemB
      = (List.replicate 100 exQueueItemA).drop 1 ++ [exQueueItemB] :=
  (offline_queue_capacity []).2.2 (List.replicate 100 exQueueItemA)
    exQueueItemB (by simp [MAX_QUEUE_SIZE])

/-- C8: during `processQueue` the head operation is executed; on success it
is removed (success count incremented); on failure its attempt counter is
incremented and it is moved to the tail, unless the counter has reached 3,
in which case it is dropped.  Consequently an operation that fails twice
and succeeds on its third execution ends removed from the queue with
exactly one successful (remotely applied) execution. -/
theorem processQueue_head_policy (exec : Nat → QueueItem → Bool) (t : Nat)
    (item : QueueItem) (rest : List QueueItem) (succ failed : Nat) :
    (exec t item = true →
      Sync.OfflineQueue.processQueue exec t (item :: rest) (succ, failed)
        = Sync.OfflineQueue.processQueue exec (t + 1) rest (succ + 1, failed)) ∧
    (exec t item = false → 3 ≤ item.attempts + 1 →
      Sync.OfflineQueue.processQueue exec t (item :: rest) (succ, failed)
        = Sync.OfflineQueue.processQueue exec (t + 1) rest (succ, failed + 1)) ∧
    (exec t item = false → item.attempts + 1 < 3 →
      Sync.OfflineQueue.processQueue exec t (item :: rest) (succ, failed)
        = Sync.OfflineQueue.processQueue exec (t + 1)
            (rest ++ [{ item with attempts := item.attempts + 1 }])
            (succ, failed + 1)) ∧
    (∀ (g : Nat → QueueItem → Bool) (j : QueueItem), j.attempts = 0 →
      g 0 j = false → g 1 { j with attempts := 1 } = false →
      g 2 { j with attempts := 2 } = true →
      Sync.OfflineQueue.processQueue g 0 [j] (0, 0) = ((1, 2), [])) := by
  refine ⟨?_, ?_, ?_, ?_⟩
  · intro h
    rw [Sync.OfflineQueue.processQueue, if_pos h]
  · intro h h3
    rw [Sync.OfflineQueue.processQueue, if_neg (by rw [h]; decide),
      if_pos h3]
  · intro h h3
    rw [Sync.OfflineQueue.processQueue, if_neg (by rw [h]; decide),
      if_neg (by omega)]
  · intro g j hj hg0 hg1 hg2
    have b1 : ({ j with attempts := j.attempts + 1 } : QueueItem)
        = { j with attempts := 1 } := by rw [hj]
    rw [Sync.OfflineQueue.processQueue, if_neg (by rw [hg0]; decide),
      if_neg (by omega), List.nil_append, b1]
    have b2 : ({ { j with attempts := 1 } with
        attempts := ({ j with attempts := 1 } : QueueItem).attempts + 1 } : QueueItem)
        = { j with attempts := 2 } := rfl
    rw [Sync.OfflineQueue.processQueue, if_neg (by rw [hg1]; decide),
      if_neg (by simp), List.nil_append, b2]
    rw [Sync.OfflineQueue.processQueue, if_pos hg2]
    rw [Sync.OfflineQueue.processQueue]

/-- Example queue item for the `processQueue` witness. -/
def exRetryItem : QueueItem :=
  ⟨"q2", "t2", ⟨"recipes", "update", [("name", .str "Ladoo")], some "r9"⟩, 0⟩

/-- Witness for `processQueue_head_policy`: with an execution oracle that
fails twice then succeeds, the single queued operation is applied once and
removed. -/
theorem processQueue_head_policy_witness :
    Sync.OfflineQueue.processQueue (fun t _ => decide (t = 2)) 0
      [exRetryItem] (0, 0) = ((1, 2), []) :=
  (processQueue_head_policy (fun t _ => decide (t = 2)) 0 exRetryItem [] 0 0).2.2.2
    (fun t _ => decide (t = 2)) exRetryItem rfl rfl rfl rfl

theorem runSaves_pending_burst (rest : List (Nat × SyncOperation)) :
    ∀ (c : Nat × SyncOperation) (tf : Nat) (pargs : SyncOperation),
    c.1 < tf →
    (c :: rest).Chain' (fun p q => p.1 ≤ q.1 ∧ q.1 < p.1 + DEBOUNCE_MS) →
    Sync.Manager.runSaves (some (tf, pargs)) (c :: rest)
      = ((c :: rest).getLast?.map Prod.snd).toList := by
  induction rest with
  | nil =>
    intro c tf pargs hlt _
    obtain ⟨t, args⟩ := c
    rw [Sync.Manager.runSaves, if_neg (by omega)]
    rfl
  | cons c₂ rest' ih =>
    intro c tf pargs hlt hchain
    obtain ⟨t, args⟩ := c
    obtain ⟨hstep, hchain'⟩ := List.chain'_cons.mp hchain
    rw [Sync.Manager.runSaves, if_neg (by omega), List.getLast?_cons_cons]
    exact ih c₂ (t + DEBOUNCE_MS) args hstep.2 hchain'

/-- C9: for a burst of `save()` calls in which every subsequent call
arrives before `DEBOUNCE_MS` (300ms) have elapsed since the previous one,
every earlier pending timer is cleared before it fires, so exactly the
last call's operation is dispatched to the DB module. -/
theorem save_debounce_last_call_wins (calls : List (Nat × SyncOperation))
    (hburst : calls.Chain' (fun p q => p.1 ≤ q.1 ∧ q.1 < p.1 + DEBOUNCE_MS)) :
    Sync.Manager.runSaves none calls
      = (calls.getLast?.map Prod.snd).toList := by
  cases calls with
  | nil => rfl
  | cons c rest =>
    obtain ⟨t, args⟩ := c
    cases rest with
    | nil => rfl
    | cons c₂ rest' =>
      obtain ⟨hstep, hchain'⟩ := List.chain'_cons.mp hburst
      rw [Sync.Manager.runSaves, List.getLast?_cons_cons]
      exact runSaves_pending_burst rest' c₂ (t + DEBOUNCE_MS) args
        hstep.2 hchain'

/-- Example operations for the debounce witness. -/
def exSaveOpA : SyncOperation := ⟨"ingredients", "update", [("price", .num 1)], some "r1"⟩

def exSaveOpB : SyncOperation := ⟨"ingredients", "update", [("price", .num 2)], some "r1"⟩

def exSaveOpC : SyncOperation := ⟨"ingredients", "update", [("price", .num 3)], some "r1"⟩

/-- Witness for `save_debounce_last_call_wins`: three calls at 0ms, 100ms
and 200ms dispatch only the third operation. -/
theorem save_debounce_last_call_wins_witness :
    Sync.Manager.runSaves none
      [(0, exSaveOpA), (100, exSaveOpB), (200, exSaveOpC)] = [exSaveOpC] :=
  (save_debounce_last_call_wins
      [(0, exSaveOpA), (100, exSaveOpB), (200, exSaveOpC)]
      (by norm_num [List.chain'_cons, DEBOUNCE_MS])).trans (by decide)
